import Mathlib

/-! Verification of the satellite Core supervisor (satellite/core.go).

The Core supervisor owns one slot per subsystem (mirroring the fields of the
Go struct `Core`).  `New` builds the slots in the source's block order,
`Run` fans out one errgroup task per launched slot, and `Close` tears the
populated slots down in the source's fixed order, aggregating errors.

Go values are shallowly embedded: a subsystem pointer field becomes a `Bool`
slot ("populated" = non-nil), the `payments.Accounts` interface field becomes
an `Option AccountsImpl`, a Go `error` becomes a `List Nat` of error atoms
(`[]` is Go's `nil`; `errs.Combine`/`errs.Group` concatenate), and the three
fallible constructor calls inside `New` are driven by an injection record
saying which of them fail.  The subsystems themselves live in satellite
subpackages that are not part of the shown sources, so their `Close`
behaviour is modelled from the spec where noted. -/

namespace SatelliteCore

/-- One slot per field of the Go `Core` struct (satellite/core.go lines 46-123). -/
inductive Slot where
  | version
  | dialer
  | contactService
  | overlayDB
  | overlayService
  | liveAccountingCache
  | accountingProjectUsage
  | ordersService
  | metainfoDatabase
  | metainfoService
  | metainfoLoop
  | repairChecker
  | repairRepairer
  | auditQueue
  | auditVerifier
  | auditReporter
  | auditWorker
  | auditChore
  | gcService
  | dbCleanupChore
  | accountingTally
  | accountingRollup
  | paymentsAccounts
  | paymentsChore
  | gracefulExitChore
  | metricsChore
  | downtimeService
  | downtimeDetectionChore
  deriving DecidableEq, Repr

/-- The two payment `Accounts` implementations selected by the `switch` on
`config.Payments.Provider` (core.go lines 311-335). -/
inductive AccountsImpl where
  | mock
  | stripe
  deriving DecidableEq, Repr

/-- The Go `Core` struct: each pointer field is `true` when non-nil, and the
`Payments.Accounts` interface field carries which implementation was chosen. -/
structure Core where
  version : Bool
  dialer : Bool
  contactService : Bool
  overlayDB : Bool
  overlayService : Bool
  liveAccountingCache : Bool
  accountingProjectUsage : Bool
  ordersService : Bool
  metainfoDatabase : Bool
  metainfoService : Bool
  metainfoLoop : Bool
  repairChecker : Bool
  repairRepairer : Bool
  auditQueue : Bool
  auditVerifier : Bool
  auditReporter : Bool
  auditWorker : Bool
  auditChore : Bool
  gcService : Bool
  dbCleanupChore : Bool
  accountingTally : Bool
  accountingRollup : Bool
  paymentsAccounts : Option AccountsImpl
  paymentsChore : Bool
  gracefulExitChore : Bool
  metricsChore : Bool
  downtimeService : Bool
  downtimeDetectionChore : Bool
  deriving DecidableEq, Repr

/-- The zero value of the Go struct: every pointer field nil (`peer := &Core{...}`,
core.go line 127). -/
def Core.empty : Core :=
  { version := false, dialer := false, contactService := false, overlayDB := false,
    overlayService := false, liveAccountingCache := false, accountingProjectUsage := false,
    ordersService := false, metainfoDatabase := false, metainfoService := false,
    metainfoLoop := false, repairChecker := false, repairRepairer := false,
    auditQueue := false, auditVerifier := false, auditReporter := false,
    auditWorker := false, auditChore := false, gcService := false, dbCleanupChore := false,
    accountingTally := false, accountingRollup := false, paymentsAccounts := none,
    paymentsChore := false, gracefulExitChore := false, metricsChore := false,
    downtimeService := false, downtimeDetectionChore := false }

/-- Whether a slot of the struct is populated (the Go `!= nil` test). -/
def Core.populated (c : Core) : Slot → Bool
  | .version => c.version
  | .dialer => c.dialer
  | .contactService => c.contactService
  | .overlayDB => c.overlayDB
  | .overlayService => c.overlayService
  | .liveAccountingCache => c.liveAccountingCache
  | .accountingProjectUsage => c.accountingProjectUsage
  | .ordersService => c.ordersService
  | .metainfoDatabase => c.metainfoDatabase
  | .metainfoService => c.metainfoService
  | .metainfoLoop => c.metainfoLoop
  | .repairChecker => c.repairChecker
  | .repairRepairer => c.repairRepairer
  | .auditQueue => c.auditQueue
  | .auditVerifier => c.auditVerifier
  | .auditReporter => c.auditReporter
  | .auditWorker => c.auditWorker
  | .auditChore => c.auditChore
  | .gcService => c.gcService
  | .dbCleanupChore => c.dbCleanupChore
  | .accountingTally => c.accountingTally
  | .accountingRollup => c.accountingRollup
  | .paymentsAccounts => c.paymentsAccounts.isSome
  | .paymentsChore => c.paymentsChore
  | .gracefulExitChore => c.gracefulExitChore
  | .metricsChore => c.metricsChore
  | .downtimeService => c.downtimeService
  | .downtimeDetectionChore => c.downtimeDetectionChore

/-- The exact sequence of nil-guarded `Close` calls in `Core.Close`
(core.go lines 426-481), in source order. -/
def closeOrder : List Slot :=
  [.downtimeDetectionChore, .metricsChore, .gracefulExitChore,
   .auditChore, .auditWorker,
   .accountingRollup, .accountingTally,
   .dbCleanupChore,
   .repairRepairer, .repairChecker,
   .overlayService, .contactService, .metainfoLoop]

/-- Environment: the error each subsystem's `Close` reports when it actually
releases its resources (`[]` = Go `nil`). -/
structure CloseEnv where
  closeErr : Slot → List Nat

/-- Which subsystem handles have already been closed (released). -/
structure SubsysState where
  closed : Slot → Bool

/-- All subsystem handles still open. -/
def freshState : SubsysState := ⟨fun _ => false⟩

/-- Modelled from the spec: the `Close` method of an individual subsystem
handle (the satellite subpackages - audit, metrics, gracefulexit, ... - are
not among the shown sources).  Per the spec's handle state machine
(`running -> stopped`, `stopped` terminal), closing an open handle releases
its resources (reporting the environment's error for it) and moves it to
`stopped`; closing a stopped handle is a no-op reporting no error.
Returns (reported error, new state, whether a release happened now). -/
def closeSlot (env : CloseEnv) (st : SubsysState) (s : Slot) :
    List Nat × SubsysState × Bool :=
  if st.closed s then ([], st, false)
  else (env.closeErr s, ⟨fun t => if t = s then true else st.closed t⟩, true)

/-- Result of one `Core.Close` call: the combined error (`errs.Group.Err`),
the subsystem states afterwards, the slots whose `Close` method was invoked
(in invocation order), and the slots actually released by this call. -/
structure CloseResult where
  err : List Nat
  state : SubsysState
  invoked : List Slot
  released : List Slot

/-- The guarded-close loop body of `Core.Close`: walk the given slot list,
and for each populated slot invoke its `Close` and `errlist.Add` the error;
skip nil slots (core.go lines 426-481). -/
def closeList (c : Core) (env : CloseEnv) : List Slot → SubsysState → CloseResult
  | [], st => ⟨[], st, [], []⟩
  | s :: rest, st =>
    if c.populated s then
      let one := closeSlot env st s
      let r := closeList c env rest one.2.1
      ⟨one.1 ++ r.err, r.state, s :: r.invoked,
       (if one.2.2 then [s] else []) ++ r.released⟩
    else
      closeList c env rest st

/-- `Core.Close` (core.go lines 426-481): close the populated slots in
`closeOrder`, aggregating all errors with an `errs.Group`. -/
def Core.Close (c : Core) (env : CloseEnv) (st : SubsysState) : CloseResult :=
  closeList c env closeOrder st

/-- The configuration fields `New` branches on. -/
structure Config where
  versionInfoIsZero : Bool
  paymentsProvider : String
  gracefulExitEnabled : Bool
  deriving DecidableEq, Repr

/-- The log statements `New` can emit. -/
inductive LogEvent where
  | versionBanner
  | startingListener
  | gracefulExitDisabled
  deriving DecidableEq, Repr

/-- Failure injection for the three fallible constructor calls inside `New`:
`tlsopts.NewOptions` (line 147), `versionInfo.Proto()` (line 156) and
`audit.NewWorker` (line 270).  `[]` means the call succeeds. -/
structure Inject where
  tlsErr : List Nat
  protoErr : List Nat
  auditWorkerErr : List Nat
  deriving DecidableEq, Repr

/-- What `New` returns: the built supervisor (or `none`), the combined error,
the logs emitted, and - when a step failed - which slots the teardown call
`peer.Close()` invoked and released. -/
structure NewResult where
  core : Option Core
  err : List Nat
  logs : List LogEvent
  closeInvoked : List Slot
  closeReleased : List Slot

/-- The fully built supervisor `New` produces on the success path
(core.go lines 126-367): every unconditional slot populated, the payments
slots selected by `config.Payments.Provider`, the graceful-exit chore
populated exactly when `config.GracefulExit.Enabled`. -/
def buildCore (cfg : Config) : Core :=
  { version := true, dialer := true, contactService := true, overlayDB := true,
    overlayService := true, liveAccountingCache := true, accountingProjectUsage := true,
    ordersService := true, metainfoDatabase := true, metainfoService := true,
    metainfoLoop := true, repairChecker := true, repairRepairer := true,
    auditQueue := true, auditVerifier := true, auditReporter := true,
    auditWorker := true, auditChore := true, gcService := true, dbCleanupChore := true,
    accountingTally := true, accountingRollup := true,
    paymentsAccounts :=
      some (if cfg.paymentsProvider = "stripecoinpayments"
            then AccountsImpl.stripe else AccountsImpl.mock),
    paymentsChore := decide (cfg.paymentsProvider = "stripecoinpayments"),
    gracefulExitChore := cfg.gracefulExitEnabled, metricsChore := true,
    downtimeService := true, downtimeDetectionChore := true }

/-- `New` (core.go lines 126-367), block by block in source order.  Each
fallible step, on failure, returns `nil, errs.Combine(err, peer.Close())`
with the partially built `peer`. -/
def New (cfg : Config) (env : CloseEnv) (inj : Inject) : NewResult :=
  -- setup version control (lines 135-141)
  let logsV := if cfg.versionInfoIsZero then ([] : List LogEvent)
               else [LogEvent.versionBanner]
  let peer1 : Core := { Core.empty with version := true }
  -- setup listener and server (lines 143-153)
  let logsL := logsV ++ [LogEvent.startingListener]
  if inj.tlsErr ≠ [] then
    let cr := peer1.Close env freshState
    ⟨none, inj.tlsErr ++ cr.err, logsL, cr.invoked, cr.released⟩
  else
  let peer2 : Core := { peer1 with dialer := true }
  -- setup contact service (lines 155-172); versionInfo.Proto() may fail
  if inj.protoErr ≠ [] then
    let cr := peer2.Close env freshState
    ⟨none, inj.protoErr ++ cr.err, logsL, cr.invoked, cr.released⟩
  else
  let peer3 : Core := { peer2 with contactService := true }
  -- setup overlay (lines 174-177)
  let peer4 : Core := { peer3 with overlayDB := true, overlayService := true }
  -- setup live accounting (lines 179-181)
  let peer5 : Core := { peer4 with liveAccountingCache := true }
  -- setup accounting project usage (lines 183-189)
  let peer6 : Core := { peer5 with accountingProjectUsage := true }
  -- setup orders (lines 191-204)
  let peer7 : Core := { peer6 with ordersService := true }
  -- setup metainfo (lines 206-213)
  let peer8 : Core :=
    { peer7 with
      metainfoDatabase := true
      metainfoService := true
      metainfoLoop := true }
  -- setup datarepair (lines 215-245)
  let peer9 : Core := { peer8 with repairChecker := true, repairRepairer := true }
  -- setup audit (lines 247-286); audit.NewWorker may fail after the queue,
  -- verifier and reporter are already in place
  let peer10 : Core :=
    { peer9 with
      auditQueue := true
      auditVerifier := true
      auditReporter := true }
  if inj.auditWorkerErr ≠ [] then
    let cr := peer10.Close env freshState
    ⟨none, inj.auditWorkerErr ++ cr.err, logsL, cr.invoked, cr.released⟩
  else
  let peer11 : Core := { peer10 with auditWorker := true, auditChore := true }
  -- setup garbage collection (lines 288-296)
  let peer12 : Core := { peer11 with gcService := true }
  -- setup db cleanup (lines 298-300)
  let peer13 : Core := { peer12 with dbCleanupChore := true }
  -- setup accounting (lines 302-305)
  let peer14 : Core := { peer13 with accountingTally := true, accountingRollup := true }
  -- setup payments (lines 307-336): switch on config.Payments.Provider
  let peer15 : Core := { peer14 with
    paymentsAccounts :=
      some (if cfg.paymentsProvider = "stripecoinpayments"
            then AccountsImpl.stripe else AccountsImpl.mock),
    paymentsChore := decide (cfg.paymentsProvider = "stripecoinpayments") }
  -- setup graceful exit (lines 338-344): skipped entirely when disabled
  let logsG := if cfg.gracefulExitEnabled then logsL
               else logsL ++ [LogEvent.gracefulExitDisabled]
  let peer16 : Core := { peer15 with gracefulExitChore := cfg.gracefulExitEnabled }
  -- setup metrics service (lines 346-352)
  let peer17 : Core := { peer16 with metricsChore := true }
  -- setup downtime tracking (lines 354-364)
  let peer18 : Core :=
    { peer17 with
      downtimeService := true
      downtimeDetectionChore := true }
  ⟨some peer18, [], logsG, [], []⟩

/-- The three fallible constructor calls inside `New`. -/
inductive FailStep where
  | tls
  | proto
  | auditWorker
  deriving DecidableEq, Repr

/-- The partially built `peer` at the moment each fallible call fails:
after `setup version control` for the TLS failure, additionally after the
dialer for the proto failure, and with everything up to the audit queue,
verifier and reporter for the `audit.NewWorker` failure. -/
def builtAtFailure : FailStep → Core
  | .tls => { Core.empty with version := true }
  | .proto => { Core.empty with version := true, dialer := true }
  | .auditWorker =>
    { Core.empty with
      version := true
      dialer := true
      contactService := true
      overlayDB := true
      overlayService := true
      liveAccountingCache := true
      accountingProjectUsage := true
      ordersService := true
      metainfoDatabase := true
      metainfoService := true
      metainfoLoop := true
      repairChecker := true
      repairRepairer := true
      auditQueue := true
      auditVerifier := true
      auditReporter := true }

/-- The injected error of a given fallible step. -/
def stepErrOf (inj : Inject) : FailStep → List Nat
  | .tls => inj.tlsErr
  | .proto => inj.protoErr
  | .auditWorker => inj.auditWorkerErr

/-- The first fallible call of `New` that fails under the injection, if any, in
the source's execution order. -/
def firstFailure (inj : Inject) : Option FailStep :=
  if inj.tlsErr ≠ [] then some .tls
  else if inj.protoErr ≠ [] then some .proto
  else if inj.auditWorkerErr ≠ [] then some .auditWorker
  else none

/-- A Go error value as a subsystem `Run` returns it: `nil`, the sentinel
`context.Canceled`, or any other failure. -/
inductive GoError where
  | none
  | canceled
  | failure (code : Nat)
  deriving DecidableEq, Repr

/-- Modelled from the spec: `errs2.IgnoreCanceled` (storj.io/common/errs2,
wrapped around every task in `Core.Run`) - an error equal to
"context canceled" is benign and reported as no error; anything else passes
through. -/
def IgnoreCanceled : GoError → GoError
  | .canceled => .none
  | e => e

/-- The `group.Go` launches of `Core.Run` (core.go lines 370-423), in source
order: twelve unconditional launches, plus the graceful-exit chore and the
payments chore exactly when their nil-guard finds the slot populated. -/
def runLaunchList (c : Core) : List Slot :=
  [.metainfoLoop, .version, .repairChecker, .repairRepairer, .dbCleanupChore,
   .accountingTally, .accountingRollup, .auditWorker, .auditChore, .gcService]
  ++ (if c.gracefulExitChore then [Slot.gracefulExitChore] else [])
  ++ [Slot.metricsChore]
  ++ (if c.paymentsChore then [Slot.paymentsChore] else [])
  ++ [Slot.downtimeDetectionChore]

/-- The twelve slots `Core.Run` launches unconditionally. -/
def fixedRunSlots : List Slot :=
  [.metainfoLoop, .version, .repairChecker, .repairRepairer, .dbCleanupChore,
   .accountingTally, .accountingRollup, .auditWorker, .auditChore, .gcService,
   .metricsChore, .downtimeDetectionChore]

/-- All fourteen slots `Core.Run` consults, in launch order. -/
def allRunSlots : List Slot :=
  [.metainfoLoop, .version, .repairChecker, .repairRepairer, .dbCleanupChore,
   .accountingTally, .accountingRollup, .auditWorker, .auditChore, .gcService,
   .gracefulExitChore, .metricsChore, .paymentsChore, .downtimeDetectionChore]

/-- The shared state of the errgroup: whether the shared child context has
been canceled, and the first non-nil error a task function returned. -/
structure GroupState where
  ctxCanceled : Bool
  firstErr : GoError
  deriving DecidableEq, Repr

/-- Modelled from the spec: one task completion under
`errgroup.WithContext` semantics - when a task's function returns non-nil
(`e`, already filtered through `IgnoreCanceled`), the group cancels the
shared child context and keeps the first such error for `Wait`; a nil return
changes nothing. -/
def groupStep (st : GroupState) (e : GoError) : GroupState :=
  if e = GoError.none then st
  else ⟨true, if st.firstErr = GoError.none then e else st.firstErr⟩

/-- Modelled from the spec: `group.Wait` - fold the task completions, in the
order the scheduler finishes them, through the errgroup state. -/
def groupRun (outcome : Slot → GoError) : List Slot → GroupState → GroupState
  | [], st => st
  | t :: rest, st => groupRun outcome rest (groupStep st (IgnoreCanceled (outcome t)))

/-- `Core.Run` (core.go lines 370-423): every launched task returns
`errs2.IgnoreCanceled` of its subsystem's `Run` result (given by `outcome`);
`sched` is the order in which the scheduler completes the launched tasks, and
the result is what `group.Wait` returns after all of them finished. -/
def Core.Run (_c : Core) (outcome : Slot → GoError) (sched : List Slot) : GoError :=
  (groupRun outcome sched ⟨false, .none⟩).firstErr

/-- The first non-benign error among the task completions, in completion
order (`GoError.none` when every task was benign). -/
def firstNonBenign (outcome : Slot → GoError) : List Slot → GoError
  | [] => .none
  | t :: rest =>
    if IgnoreCanceled (outcome t) = GoError.none then firstNonBenign outcome rest
    else IgnoreCanceled (outcome t)

/-- The brace-delimited setup blocks of `New`, in source order
(core.go lines 135-364). -/
inductive Step where
  | versionControl
  | listenerServer
  | contactService
  | overlay
  | liveAccounting
  | accountingProjectUsage
  | orders
  | metainfo
  | datarepair
  | audit
  | garbageCollection
  | dbCleanup
  | accounting
  | payments
  | gracefulExit
  | metrics
  | downtimeTracking
  deriving DecidableEq, Repr

/-- The setup blocks of `New` in their source order. -/
def stepOrder : List Step :=
  [.versionControl, .listenerServer, .contactService, .overlay, .liveAccounting,
   .accountingProjectUsage, .orders, .metainfo, .datarepair, .audit,
   .garbageCollection, .dbCleanup, .accounting, .payments, .gracefulExit,
   .metrics, .downtimeTracking]

/-- The `peer` fields each setup block assigns (transcribed from the
assignments inside each block of core.go lines 135-364). -/
def stepWrites (cfg : Config) : Step → List Slot
  | .versionControl => [.version]
  | .listenerServer => [.dialer]
  | .contactService => [.contactService]
  | .overlay => [.overlayDB, .overlayService]
  | .liveAccounting => [.liveAccountingCache]
  | .accountingProjectUsage => [.accountingProjectUsage]
  | .orders => [.ordersService]
  | .metainfo => [.metainfoDatabase, .metainfoService, .metainfoLoop]
  | .datarepair => [.repairChecker, .repairRepairer]
  | .audit => [.auditQueue, .auditVerifier, .auditReporter, .auditWorker, .auditChore]
  | .garbageCollection => [.gcService]
  | .dbCleanup => [.dbCleanupChore]
  | .accounting => [.accountingTally, .accountingRollup]
  | .payments =>
    if cfg.paymentsProvider = "stripecoinpayments"
    then [.paymentsAccounts, .paymentsChore] else [.paymentsAccounts]
  | .gracefulExit => if cfg.gracefulExitEnabled then [.gracefulExitChore] else []
  | .metrics => [.metricsChore]
  | .downtimeTracking => [.downtimeService, .downtimeDetectionChore]

/-- The `peer` fields each setup block passes to the constructors it calls
(transcribed from the argument lists in core.go; fields a block itself just
assigned are internal to the block and not listed):
contact: `contact.NewService(..., peer.Overlay.Service, ..., peer.Dialer)`;
orders: `orders.NewService(..., peer.Overlay.Service, ...)`;
datarepair: checker and segment repairer take `peer.Metainfo.Service`,
`peer.Metainfo.Loop`, `peer.Overlay.Service`, `peer.Orders.Service`,
`peer.Dialer`; audit: verifier, reporter and chore take
`peer.Metainfo.Service`, `peer.Dialer`, `peer.Overlay.Service`,
`peer.Orders.Service`, `peer.Metainfo.Loop`; garbage collection takes
`peer.Dialer`, `peer.Overlay.DB`, `peer.Metainfo.Loop`; accounting tally
takes `peer.LiveAccounting.Cache` and `peer.Metainfo.Loop`; graceful exit
takes `peer.Overlay.DB` and `peer.Metainfo.Loop`; metrics takes
`peer.Metainfo.Loop`; downtime tracking takes `peer.Overlay.Service` and
`peer.Contact.Service`. -/
def stepReads (cfg : Config) : Step → List Slot
  | .versionControl => []
  | .listenerServer => []
  | .contactService => [.overlayService, .dialer]
  | .overlay => []
  | .liveAccounting => []
  | .accountingProjectUsage => [.liveAccountingCache]
  | .orders => [.overlayService]
  | .metainfo => []
  | .datarepair => [.metainfoService, .metainfoLoop, .overlayService,
                    .ordersService, .dialer]
  | .audit => [.metainfoService, .dialer, .overlayService, .ordersService,
               .metainfoLoop]
  | .garbageCollection => [.dialer, .overlayDB, .metainfoLoop]
  | .dbCleanup => []
  | .accounting => [.liveAccountingCache, .metainfoLoop]
  | .payments => []
  | .gracefulExit => if cfg.gracefulExitEnabled then [.overlayDB, .metainfoLoop] else []
  | .metrics => [.metainfoLoop]
  | .downtimeTracking => [.overlayService, .contactService]

/-- All slots written by blocks strictly before `s` in the source order. -/
def writesBefore (cfg : Config) (s : Step) : List Slot :=
  ((stepOrder.takeWhile fun t => !(decide (t = s))).map (stepWrites cfg)).flatten

/-- The configuration with graceful exit forced to a given value. -/
def withGE (b : Bool) (cfg : Config) : Config := { cfg with gracefulExitEnabled := b }

/-- A configuration exercising every optional subsystem: stripe payments and
graceful exit enabled. -/
def cfgFull : Config :=
  { versionInfoIsZero := false, paymentsProvider := "stripecoinpayments",
    gracefulExitEnabled := true }

/-- A configuration with the default payment provider and graceful exit
disabled. -/
def cfgBase : Config :=
  { versionInfoIsZero := false, paymentsProvider := "", gracefulExitEnabled := false }

/-- A close environment in which every subsystem close succeeds. -/
def envOk : CloseEnv := ⟨fun _ => []⟩

/-- A close environment in which the audit worker's close fails with error 3
and the repairer's close fails with error 5. -/
def envFails : CloseEnv :=
  ⟨fun s => if s = Slot.auditWorker then [3]
            else if s = Slot.repairRepairer then [5] else []⟩

/-- An injection making every fallible call of `New` succeed. -/
def injOk : Inject := ⟨[], [], []⟩

/-- An injection failing `tlsopts.NewOptions` with error 7. -/
def injTls : Inject := ⟨[7], [], []⟩

/-- An injection failing `audit.NewWorker` with error 9. -/
def injAudit : Inject := ⟨[], [], [9]⟩

/-- An outcome in which every subsystem run exits with benign cancellation. -/
def outcomeCanceled : Slot → GoError := fun _ => GoError.canceled

/-- An outcome in which the repair checker fails with error 11 and everything
else is canceled. -/
def outcomeCheckerFails : Slot → GoError :=
  fun s => if s = Slot.repairChecker then GoError.failure 11 else GoError.canceled

/-! ### Helper lemmas about the close loop -/

/-- The close loop invokes `Close` on exactly the populated slots of its list,
in list order, whatever the subsystem states and close errors are. -/
theorem closeList_invoked (c : Core) (env : CloseEnv) :
    ∀ (l : List Slot) (st : SubsysState),
      (closeList c env l st).invoked = l.filter c.populated
  | [], _ => rfl
  | s :: rest, st => by
    by_cases h : c.populated s <;>
      simp [closeList, h, List.filter_cons, closeList_invoked c env rest]

/-- The combined error of a close loop is the concatenation of the close
errors of the slots it actually released, in release order. -/
theorem closeList_err (c : Core) (env : CloseEnv) :
    ∀ (l : List Slot) (st : SubsysState),
      (closeList c env l st).err
        = ((closeList c env l st).released.map env.closeErr).flatten
  | [], _ => rfl
  | s :: rest, st => by
    by_cases h : c.populated s
    · by_cases hcl : st.closed s = true <;>
        simp [closeList, closeSlot, h, hcl, closeList_err c env rest]
    · simp [closeList, h, closeList_err c env rest]

/-- After a close loop, a handle is closed iff it already was, or it is a
populated slot of the list. -/
theorem closeList_state (c : Core) (env : CloseEnv) :
    ∀ (l : List Slot) (st : SubsysState) (t : Slot),
      (closeList c env l st).state.closed t
        = (st.closed t || (decide (t ∈ l) && c.populated t))
  | [], st, t => by simp [closeList]
  | s :: rest, st, t => by
    by_cases h : c.populated s
    · by_cases hcl : st.closed s = true
      · simp only [closeList, closeSlot, h, hcl, if_true, if_pos]
        rw [closeList_state c env rest st t]
        by_cases hts : t = s
        · subst hts; simp [hcl, h]
        · simp [hts, List.mem_cons]
      · simp only [closeList, closeSlot, h, hcl, if_true, if_neg, Bool.false_eq_true,
          not_false_iff, if_pos]
        rw [closeList_state c env rest _ t]
        by_cases hts : t = s
        · subst hts; simp [h]
        · simp [hts, List.mem_cons]
    · simp only [closeList, h, Bool.false_eq_true, if_neg, not_false_iff]
      rw [closeList_state c env rest st t]
      by_cases hts : t = s
      · subst hts
        simp [h]
      · simp [hts, List.mem_cons]

/-- Every slot a close loop releases was still open when the loop started. -/
theorem closeList_released_open (c : Core) (env : CloseEnv) :
    ∀ (l : List Slot) (st : SubsysState) (t : Slot),
      t ∈ (closeList c env l st).released → st.closed t = false
  | [], st, t => by simp [closeList]
  | s :: rest, st, t => by
    by_cases h : c.populated s
    · by_cases hcl : st.closed s = true
      · simp only [closeList, closeSlot, h, hcl, if_true, if_pos]
        intro ht
        exact closeList_released_open c env rest st t (by simpa using ht)
      · simp only [closeList, closeSlot, h, hcl, if_true, if_neg, Bool.false_eq_true,
          not_false_iff, if_pos]
        intro ht
        rcases List.mem_append.mp ht with hts | htr
        · rcases List.mem_singleton.mp hts with rfl
          simpa using hcl
        · have hopen := closeList_released_open c env rest _ t htr
          by_cases hts : t = s
          · subst hts; simp at hopen
          · simpa [hts] using hopen
    · simp only [closeList, h, Bool.false_eq_true, if_neg, not_false_iff]
      exact closeList_released_open c env rest st t

/-- No close loop releases the same handle twice. -/
theorem closeList_released_nodup (c : Core) (env : CloseEnv) :
    ∀ (l : List Slot) (st : SubsysState),
      (closeList c env l st).released.Nodup
  | [], st => by simp [closeList]
  | s :: rest, st => by
    by_cases h : c.populated s
    · by_cases hcl : st.closed s = true
      · simpa [closeList, closeSlot, h, hcl] using
          closeList_released_nodup c env rest st
      · simp only [closeList, closeSlot, h, hcl, if_true, if_neg, Bool.false_eq_true,
          not_false_iff, if_pos, List.singleton_append]
        refine List.nodup_cons.mpr ⟨fun hmem => ?_, closeList_released_nodup c env rest _⟩
        have := closeList_released_open c env rest _ s hmem
        simp at this
    · simpa [closeList, h] using closeList_released_nodup c env rest st

/-- A close loop over slots whose populated members are all already closed
releases nothing and reports no error. -/
theorem closeList_released_nil (c : Core) (env : CloseEnv) :
    ∀ (l : List Slot) (st : SubsysState),
      (∀ t ∈ l, c.populated t = true → st.closed t = true) →
      (closeList c env l st).released = [] ∧ (closeList c env l st).err = []
  | [], st, _ => ⟨rfl, rfl⟩
  | s :: rest, st, hall => by
    by_cases h : c.populated s
    · have hcl : st.closed s = true := hall s (List.mem_cons_self s rest) h
      have ih := closeList_released_nil c env rest st
        (fun t ht hp => hall t (List.mem_cons_of_mem s ht) hp)
      simpa [closeList, closeSlot, h, hcl] using ih
    · have ih := closeList_released_nil c env rest st
        (fun t ht hp => hall t (List.mem_cons_of_mem s ht) hp)
      simpa [closeList, h] using ih

/-- Over a duplicate-free list of still-open handles, a close loop releases
exactly the slots it invokes. -/
theorem closeList_released_eq_invoked (c : Core) (env : CloseEnv) :
    ∀ (l : List Slot) (st : SubsysState), l.Nodup →
      (∀ t ∈ l, st.closed t = false) →
      (closeList c env l st).released = (closeList c env l st).invoked
  | [], st, _, _ => rfl
  | s :: rest, st, hnd, hopen => by
    have hnds := List.nodup_cons.mp hnd
    by_cases h : c.populated s
    · have hcl : st.closed s = false := hopen s (List.mem_cons_self s rest)
      have ih := closeList_released_eq_invoked c env rest
        ⟨fun t => if t = s then true else st.closed t⟩ hnds.2
        (fun t ht => by
          have hts : t ≠ s := fun hts => hnds.1 (hts ▸ ht)
          simpa [hts] using hopen t (List.mem_cons_of_mem s ht))
      have ih2 : (closeList c env rest ⟨fun t => decide (t = s) || st.closed t⟩).released
          = (closeList c env rest ⟨fun t => decide (t = s) || st.closed t⟩).invoked := by
        simpa using ih
      simp [closeList, closeSlot, h, hcl, ih2]
    · have ih := closeList_released_eq_invoked c env rest st hnds.2
        (fun t ht => hopen t (List.mem_cons_of_mem s ht))
      simp [closeList, h, ih]

/-! ### Helper lemmas about the errgroup model -/

/-- Once the group holds a non-nil first error, later completions never
replace it. -/
theorem groupRun_firstErr_frozen (outcome : Slot → GoError) :
    ∀ (l : List Slot) (st : GroupState), st.firstErr ≠ GoError.none →
      (groupRun outcome l st).firstErr = st.firstErr
  | [], _, _ => rfl
  | t :: rest, st, h => by
    by_cases he : IgnoreCanceled (outcome t) = GoError.none
    · simpa [groupRun, groupStep, he] using
        groupRun_firstErr_frozen outcome rest st h
    · simp only [groupRun, groupStep, if_neg he, if_neg h]
      exact groupRun_firstErr_frozen outcome rest ⟨true, st.firstErr⟩ h

/-- `group.Wait` returns the first non-benign error of the completion order
(whatever the cancellation flag started as). -/
theorem groupRun_firstErr (outcome : Slot → GoError) :
    ∀ (l : List Slot) (b : Bool),
      (groupRun outcome l ⟨b, GoError.none⟩).firstErr = firstNonBenign outcome l
  | [], _ => rfl
  | t :: rest, b => by
    by_cases he : IgnoreCanceled (outcome t) = GoError.none
    · simpa [groupRun, groupStep, he, firstNonBenign] using
        groupRun_firstErr outcome rest b
    · rw [groupRun, firstNonBenign, if_neg he]
      have hst : groupStep ⟨b, GoError.none⟩ (IgnoreCanceled (outcome t))
          = ⟨true, IgnoreCanceled (outcome t)⟩ := by
        simp [groupStep, he]
      rw [hst]
      exact groupRun_firstErr_frozen outcome rest ⟨true, IgnoreCanceled (outcome t)⟩ he

/-- The shared child context is canceled exactly when some already-completed
task function returned a non-benign error. -/
theorem groupRun_ctx (outcome : Slot → GoError) :
    ∀ (l : List Slot) (st : GroupState),
      (groupRun outcome l st).ctxCanceled
        = (st.ctxCanceled
            || l.any fun t => decide (IgnoreCanceled (outcome t) ≠ GoError.none))
  | [], st => by simp [groupRun]
  | t :: rest, st => by
    by_cases he : IgnoreCanceled (outcome t) = GoError.none
    · simp [groupRun, groupStep, he, groupRun_ctx outcome rest]
    · simp [groupRun, groupStep, he, groupRun_ctx outcome rest]

/-- There is no non-benign error iff every task's filtered result is nil. -/
theorem firstNonBenign_eq_none (outcome : Slot → GoError) :
    ∀ (l : List Slot),
      firstNonBenign outcome l = GoError.none
        ↔ ∀ t ∈ l, IgnoreCanceled (outcome t) = GoError.none
  | [] => by simp [firstNonBenign]
  | t :: rest => by
    by_cases he : IgnoreCanceled (outcome t) = GoError.none
    · simp [firstNonBenign, he, firstNonBenign_eq_none outcome rest]
    · simp [firstNonBenign, he]

/-- On a supervisor whose twelve unconditional run slots are populated (as on
every successfully constructed `Core`), the launch list is exactly the
populated slots among the fourteen slots `Run` consults, in launch order. -/
theorem runLaunchList_eq_filter (c : Core)
    (h : ∀ s ∈ fixedRunSlots, c.populated s = true) :
    runLaunchList c = allRunSlots.filter c.populated := by
  have h01 : c.metainfoLoop = true := h Slot.metainfoLoop (by decide)
  have h02 : c.version = true := h Slot.version (by decide)
  have h03 : c.repairChecker = true := h Slot.repairChecker (by decide)
  have h04 : c.repairRepairer = true := h Slot.repairRepairer (by decide)
  have h05 : c.dbCleanupChore = true := h Slot.dbCleanupChore (by decide)
  have h06 : c.accountingTally = true := h Slot.accountingTally (by decide)
  have h07 : c.accountingRollup = true := h Slot.accountingRollup (by decide)
  have h08 : c.auditWorker = true := h Slot.auditWorker (by decide)
  have h09 : c.auditChore = true := h Slot.auditChore (by decide)
  have h10 : c.gcService = true := h Slot.gcService (by decide)
  have h11 : c.metricsChore = true := h Slot.metricsChore (by decide)
  have h12 : c.downtimeDetectionChore = true := h Slot.downtimeDetectionChore (by decide)
  cases hge : c.gracefulExitChore <;> cases hpc : c.paymentsChore <;>
    simp [runLaunchList, allRunSlots, List.filter_cons, Core.populated,
      h01, h02, h03, h04, h05, h06, h07, h08, h09, h10, h11, h12, hge, hpc]

/-- On the success path (no fallible call fails), `New` returns exactly the
fully built supervisor. -/
theorem New_ok (cfg : Config) (env : CloseEnv) :
    (New cfg env injOk).core = some (buildCore cfg) := rfl

/-- When `tlsopts.NewOptions` fails, `New` returns no supervisor and the
injected error combined with the teardown of the partial peer. -/
theorem New_fail_tls (cfg : Config) (env : CloseEnv) (inj : Inject)
    (h : inj.tlsErr ≠ []) :
    New cfg env inj =
      ⟨none,
       inj.tlsErr ++ ((builtAtFailure FailStep.tls).Close env freshState).err,
       (if cfg.versionInfoIsZero then [] else [LogEvent.versionBanner])
         ++ [LogEvent.startingListener],
       ((builtAtFailure FailStep.tls).Close env freshState).invoked,
       ((builtAtFailure FailStep.tls).Close env freshState).released⟩ := by
  simp only [New, if_pos h]
  rfl

/-- When `versionInfo.Proto()` fails, `New` returns no supervisor and the
injected error combined with the teardown of the partial peer. -/
theorem New_fail_proto (cfg : Config) (env : CloseEnv) (inj : Inject)
    (h1 : inj.tlsErr = []) (h2 : inj.protoErr ≠ []) :
    New cfg env inj =
      ⟨none,
       inj.protoErr ++ ((builtAtFailure FailStep.proto).Close env freshState).err,
       (if cfg.versionInfoIsZero then [] else [LogEvent.versionBanner])
         ++ [LogEvent.startingListener],
       ((builtAtFailure FailStep.proto).Close env freshState).invoked,
       ((builtAtFailure FailStep.proto).Close env freshState).released⟩ := by
  simp only [New, h1, if_pos h2]
  simp only [ne_eq, not_true_eq_false, not_false_eq_true, if_neg, if_false,
    reduceIte]
  rfl

/-- When `audit.NewWorker` fails, `New` returns no supervisor and the
injected error combined with the teardown of the partial peer (which already
holds the audit queue, verifier and reporter, but not the worker or chore). -/
theorem New_fail_audit (cfg : Config) (env : CloseEnv) (inj : Inject)
    (h1 : inj.tlsErr = []) (h2 : inj.protoErr = []) (h3 : inj.auditWorkerErr ≠ []) :
    New cfg env inj =
      ⟨none,
       inj.auditWorkerErr
         ++ ((builtAtFailure FailStep.auditWorker).Close env freshState).err,
       (if cfg.versionInfoIsZero then [] else [LogEvent.versionBanner])
         ++ [LogEvent.startingListener],
       ((builtAtFailure FailStep.auditWorker).Close env freshState).invoked,
       ((builtAtFailure FailStep.auditWorker).Close env freshState).released⟩ := by
  simp only [New, h1, h2, if_pos h3]
  simp only [ne_eq, not_true_eq_false, not_false_eq_true, if_neg, if_false,
    reduceIte]
  rfl

/-- A block's writes land in `writesBefore` of every later block. -/
theorem mem_writesBefore (cfg : Config) (s t : Step) (r : Slot)
    (ht : t ∈ stepOrder.takeWhile fun u => !(decide (u = s)))
    (hr : r ∈ stepWrites cfg t) : r ∈ writesBefore cfg s :=
  List.mem_flatten.mpr ⟨stepWrites cfg t, List.mem_map_of_mem (stepWrites cfg) ht, hr⟩

/-! ### The claims -/

/-- C1: For every supervisor state (fully constructed, partially constructed
after a failed build step, or already closed), calling `Core.Close` twice in
succession does not panic (the embedding is total, every slot access being
nil-guarded), does not release any resource twice (the releases of the two
calls together are duplicate-free), and the second call returns no error.
The second call still invokes the same populated slots' `Close` methods; per
the spec's handle contract those re-closes are no-ops. -/
theorem close_idempotent (c : Core) (env : CloseEnv) (st : SubsysState) :
    (c.Close env (c.Close env st).state).err = []
    ∧ (c.Close env (c.Close env st).state).invoked = (c.Close env st).invoked
    ∧ ((c.Close env st).released
        ++ (c.Close env (c.Close env st).state).released).Nodup := by
  have hclosed : ∀ t ∈ closeOrder, c.populated t = true →
      (c.Close env st).state.closed t = true := by
    intro t ht hp
    have hst : (c.Close env st).state.closed t
        = (st.closed t || (decide (t ∈ closeOrder) && c.populated t)) :=
      closeList_state c env closeOrder st t
    rw [hst]
    simp [ht, hp]
  have hnil : (c.Close env (c.Close env st).state).released = []
      ∧ (c.Close env (c.Close env st).state).err = [] :=
    closeList_released_nil c env closeOrder (c.Close env st).state hclosed
  refine ⟨hnil.2, ?_, ?_⟩
  · have h1 : (c.Close env (c.Close env st).state).invoked
        = closeOrder.filter c.populated :=
      closeList_invoked c env closeOrder (c.Close env st).state
    have h2 : (c.Close env st).invoked = closeOrder.filter c.populated :=
      closeList_invoked c env closeOrder st
    rw [h1, h2]
  · have hnd : (c.Close env st).released.Nodup :=
      closeList_released_nodup c env closeOrder st
    rw [hnil.1]
    simpa using hnd

/-- C6: During `Core.Close`, every populated slot of the teardown list has
its `Close` invoked even when an earlier slot's close returned an error (the
invocation trace is the populated filter of the teardown list, for every
error environment); all resulting errors are collected and returned together
as one combined error, the concatenation of the invoked slots' close errors
(`[]`, Go `nil`, when every close succeeded); and an empty (nil) slot is
skipped, contributing no invocation and hence no error. -/
theorem close_collects (c : Core) (env : CloseEnv) :
    (c.Close env freshState).invoked = closeOrder.filter c.populated
    ∧ (c.Close env freshState).err
        = (((c.Close env freshState).invoked).map env.closeErr).flatten
    ∧ ∀ s, c.populated s = false → s ∉ (c.Close env freshState).invoked := by
  have hinv : (c.Close env freshState).invoked = closeOrder.filter c.populated :=
    closeList_invoked c env closeOrder freshState
  have hrel : (c.Close env freshState).released = (c.Close env freshState).invoked :=
    closeList_released_eq_invoked c env closeOrder freshState (by decide)
      (fun t _ => rfl)
  have herr : (c.Close env freshState).err
      = (((c.Close env freshState).released).map env.closeErr).flatten :=
    closeList_err c env closeOrder freshState
  refine ⟨hinv, ?_, ?_⟩
  · rw [herr, hrel]
  · intro s hs hmem
    rw [hinv] at hmem
    have hp := (List.mem_filter.mp hmem).2
    rw [hs] at hp
    exact Bool.false_ne_true hp

/-- C7: `Core.Close` invokes the populated subsystems' `Close` methods in
exactly the source's order - the populated filter of the fixed teardown list
for any supervisor, and on a fully built supervisor exactly: downtime
detection chore, metrics chore, graceful-exit chore, audit chore, audit
worker, accounting rollup, accounting tally, db-cleanup chore, repairer,
repair checker, overlay service, contact service, and the metainfo loop
last. -/
theorem close_sequence (c : Core) (env : CloseEnv) :
    (c.Close env freshState).invoked = closeOrder.filter c.populated
    ∧ ((buildCore cfgFull).Close env freshState).invoked =
      [Slot.downtimeDetectionChore, Slot.metricsChore, Slot.gracefulExitChore,
       Slot.auditChore, Slot.auditWorker, Slot.accountingRollup,
       Slot.accountingTally, Slot.dbCleanupChore, Slot.repairRepairer,
       Slot.repairChecker, Slot.overlayService, Slot.contactService,
       Slot.metainfoLoop] := by
  constructor
  · exact closeList_invoked c env closeOrder freshState
  · have hinv : ((buildCore cfgFull).Close env freshState).invoked
        = closeOrder.filter (buildCore cfgFull).populated :=
      closeList_invoked (buildCore cfgFull) env closeOrder freshState
    rw [hinv]
    decide

/-- C10: `Core.Close` never invokes `Close` on the version-check service,
orders service, metainfo service, garbage-collection service, project-usage
service, payments reconciliation chore, or downtime-tracking service, even
when those slots are populated - for every supervisor and every subsystem
state, those slots are absent from the invocation trace. -/
theorem close_frame (c : Core) (env : CloseEnv) (st : SubsysState) :
    Slot.version ∉ (c.Close env st).invoked
    ∧ Slot.ordersService ∉ (c.Close env st).invoked
    ∧ Slot.metainfoService ∉ (c.Close env st).invoked
    ∧ Slot.gcService ∉ (c.Close env st).invoked
    ∧ Slot.accountingProjectUsage ∉ (c.Close env st).invoked
    ∧ Slot.paymentsChore ∉ (c.Close env st).invoked
    ∧ Slot.downtimeService ∉ (c.Close env st).invoked := by
  have hfilter : (c.Close env st).invoked = closeOrder.filter c.populated :=
    closeList_invoked c env closeOrder st
  refine ⟨?_, ?_, ?_, ?_, ?_, ?_, ?_⟩ <;>
    · intro hmem
      rw [hfilter] at hmem
      exact absurd (List.mem_of_mem_filter hmem) (by decide)

/-- C2 (counterexample to the claim as stated): when TLS option construction
fails, `New` fails after the version-check subsystem has been built, yet the
teardown invokes `Close` on nothing at all - so it is not the case that
"Close has been invoked on every subsystem built before the failing step". -/
theorem new_failure_skips_version :
    (New cfgBase envOk injTls).core = none
    ∧ (builtAtFailure FailStep.tls).populated Slot.version = true
    ∧ Slot.version ∉ (New cfgBase envOk injTls).closeInvoked := by
  decide

/-- C2 (amended): if any construction step of `New` fails (TLS option
construction, version-info proto conversion, or audit worker construction),
`New` returns a nil supervisor and a non-nil error that combines the step's
error with any error from invoking `Close` on the partially built
supervisor; `Close` has been invoked exactly once on every subsystem that
was built before the failing step and that belongs to `Core.Close`'s
teardown list (subsystems outside that list, such as the version-check
service, receive no `Close` invocation). -/
theorem new_failure_teardown (cfg : Config) (env : CloseEnv) (inj : Inject)
    (fs : FailStep) (hfail : firstFailure inj = some fs) :
    (New cfg env inj).core = none
    ∧ (New cfg env inj).err
        = stepErrOf inj fs ++ ((builtAtFailure fs).Close env freshState).err
    ∧ (New cfg env inj).err ≠ []
    ∧ (New cfg env inj).closeInvoked
        = closeOrder.filter (builtAtFailure fs).populated
    ∧ (New cfg env inj).closeInvoked.Nodup
    ∧ ∀ s, (builtAtFailure fs).populated s = true → s ∈ closeOrder →
        s ∈ (New cfg env inj).closeInvoked := by
  have hnods : closeOrder.Nodup := by decide
  by_cases h1 : inj.tlsErr = []
  · by_cases h2 : inj.protoErr = []
    · by_cases h3 : inj.auditWorkerErr = []
      · exfalso
        simp [firstFailure, h1, h2, h3] at hfail
      · have hfs : FailStep.auditWorker = fs := by
          simpa [firstFailure, h1, h2, h3] using hfail
        subst hfs
        rw [New_fail_audit cfg env inj h1 h2 h3]
        have hinv : ((builtAtFailure FailStep.auditWorker).Close env freshState).invoked
            = closeOrder.filter (builtAtFailure FailStep.auditWorker).populated :=
          closeList_invoked (builtAtFailure FailStep.auditWorker) env closeOrder freshState
        refine ⟨rfl, rfl, ?_, hinv, ?_, ?_⟩
        · intro hc
          exact h3 (List.append_eq_nil.mp hc).1
        · rw [hinv]
          exact hnods.filter ((builtAtFailure FailStep.auditWorker).populated)
        · intro s hp hs
          rw [hinv]
          exact List.mem_filter.mpr ⟨hs, hp⟩
    · have hfs : FailStep.proto = fs := by
        simpa [firstFailure, h1, h2] using hfail
      subst hfs
      rw [New_fail_proto cfg env inj h1 h2]
      have hinv : ((builtAtFailure FailStep.proto).Close env freshState).invoked
          = closeOrder.filter (builtAtFailure FailStep.proto).populated :=
        closeList_invoked (builtAtFailure FailStep.proto) env closeOrder freshState
      refine ⟨rfl, rfl, ?_, hinv, ?_, ?_⟩
      · intro hc
        exact h2 (List.append_eq_nil.mp hc).1
      · rw [hinv]
        exact hnods.filter ((builtAtFailure FailStep.proto).populated)
      · intro s hp hs
        rw [hinv]
        exact List.mem_filter.mpr ⟨hs, hp⟩
  · have hfs : FailStep.tls = fs := by
      simpa [firstFailure, h1] using hfail
    subst hfs
    rw [New_fail_tls cfg env inj h1]
    have hinv : ((builtAtFailure FailStep.tls).Close env freshState).invoked
        = closeOrder.filter (builtAtFailure FailStep.tls).populated :=
      closeList_invoked (builtAtFailure FailStep.tls) env closeOrder freshState
    refine ⟨rfl, rfl, ?_, hinv, ?_, ?_⟩
    · intro hc
      exact h1 (List.append_eq_nil.mp hc).1
    · rw [hinv]
      exact hnods.filter ((builtAtFailure FailStep.tls).populated)
    · intro s hp hs
      rw [hinv]
      exact List.mem_filter.mpr ⟨hs, hp⟩

/-- C2 (witness): a concrete audit-worker failure - `New` returns no
supervisor, the combined error, and the teardown trace of the five
teardown-list subsystems built by then, duplicate-free. -/
theorem new_failure_teardown_witness :
    (New cfgBase envFails injAudit).core = none
    ∧ (New cfgBase envFails injAudit).err
        = stepErrOf injAudit FailStep.auditWorker
          ++ ((builtAtFailure FailStep.auditWorker).Close envFails freshState).err
    ∧ (New cfgBase envFails injAudit).err ≠ []
    ∧ (New cfgBase envFails injAudit).closeInvoked
        = closeOrder.filter (builtAtFailure FailStep.auditWorker).populated
    ∧ (New cfgBase envFails injAudit).closeInvoked.Nodup
    ∧ ∀ s, (builtAtFailure FailStep.auditWorker).populated s = true →
        s ∈ closeOrder → s ∈ (New cfgBase envFails injAudit).closeInvoked :=
  new_failure_teardown cfgBase envFails injAudit FailStep.auditWorker (by decide)

/-- C3 (counterexample to the claim as stated): the contact-service step
reads the overlay-service slot, which no earlier step has written - and at
the moment `contact.NewService` runs, the overlay slot of the partially
built peer is still nil. -/
theorem construction_order_counterexample :
    Slot.overlayService ∈ stepReads cfgBase Step.contactService
    ∧ Slot.overlayService ∉ writesBefore cfgBase Step.contactService
    ∧ (builtAtFailure FailStep.proto).populated Slot.overlayService = false := by
  decide

/-- C3 (amended): every construction step of `New` other than the
contact-service step consumes only subsystems produced by earlier steps
(plus the dependency bundle); the contact service, however, is constructed
before the overlay service and receives the overlay-service slot while no
earlier step has produced it. -/
theorem construction_order_amended (cfg : Config) :
    (∀ s ∈ stepOrder, s ≠ Step.contactService →
      ∀ r ∈ stepReads cfg s, r ∈ writesBefore cfg s)
    ∧ Slot.overlayService ∈ stepReads cfg Step.contactService
    ∧ Slot.overlayService ∉ writesBefore cfg Step.contactService := by
  refine ⟨?_, by simp [stepReads], ?_⟩
  swap
  · intro hmem
    simp [writesBefore, stepOrder, stepWrites, List.takeWhile] at hmem
  intro s _ hne r hr
  cases s with
  | versionControl => simp [stepReads] at hr
  | listenerServer => simp [stepReads] at hr
  | contactService => exact absurd rfl hne
  | overlay => simp [stepReads] at hr
  | liveAccounting => simp [stepReads] at hr
  | accountingProjectUsage =>
    simp [stepReads] at hr
    subst hr
    exact mem_writesBefore cfg _ Step.liveAccounting _ (by decide) (by simp [stepWrites])
  | orders =>
    simp [stepReads] at hr
    subst hr
    exact mem_writesBefore cfg _ Step.overlay _ (by decide) (by simp [stepWrites])
  | metainfo => simp [stepReads] at hr
  | datarepair =>
    simp [stepReads] at hr
    rcases hr with rfl | rfl | rfl | rfl | rfl
    · exact mem_writesBefore cfg _ Step.metainfo _ (by decide) (by simp [stepWrites])
    · exact mem_writesBefore cfg _ Step.metainfo _ (by decide) (by simp [stepWrites])
    · exact mem_writesBefore cfg _ Step.overlay _ (by decide) (by simp [stepWrites])
    · exact mem_writesBefore cfg _ Step.orders _ (by decide) (by simp [stepWrites])
    · exact mem_writesBefore cfg _ Step.listenerServer _ (by decide) (by simp [stepWrites])
  | audit =>
    simp [stepReads] at hr
    rcases hr with rfl | rfl | rfl | rfl | rfl
    · exact mem_writesBefore cfg _ Step.metainfo _ (by decide) (by simp [stepWrites])
    · exact mem_writesBefore cfg _ Step.listenerServer _ (by decide) (by simp [stepWrites])
    · exact mem_writesBefore cfg _ Step.overlay _ (by decide) (by simp [stepWrites])
    · exact mem_writesBefore cfg _ Step.orders _ (by decide) (by simp [stepWrites])
    · exact mem_writesBefore cfg _ Step.metainfo _ (by decide) (by simp [stepWrites])
  | garbageCollection =>
    simp [stepReads] at hr
    rcases hr with rfl | rfl | rfl
    · exact mem_writesBefore cfg _ Step.listenerServer _ (by decide) (by simp [stepWrites])
    · exact mem_writesBefore cfg _ Step.overlay _ (by decide) (by simp [stepWrites])
    · exact mem_writesBefore cfg _ Step.metainfo _ (by decide) (by simp [stepWrites])
  | dbCleanup => simp [stepReads] at hr
  | accounting =>
    simp [stepReads] at hr
    rcases hr with rfl | rfl
    · exact mem_writesBefore cfg _ Step.liveAccounting _ (by decide) (by simp [stepWrites])
    · exact mem_writesBefore cfg _ Step.metainfo _ (by decide) (by simp [stepWrites])
  | payments => simp [stepReads] at hr
  | gracefulExit =>
    cases hge : cfg.gracefulExitEnabled with
    | false => simp [stepReads, hge] at hr
    | true =>
      simp [stepReads, hge] at hr
      rcases hr with rfl | rfl
      · exact mem_writesBefore cfg _ Step.overlay _ (by decide) (by simp [stepWrites])
      · exact mem_writesBefore cfg _ Step.metainfo _ (by decide) (by simp [stepWrites])
  | metrics =>
    simp [stepReads] at hr
    subst hr
    exact mem_writesBefore cfg _ Step.metainfo _ (by decide) (by simp [stepWrites])
  | downtimeTracking =>
    simp [stepReads] at hr
    rcases hr with rfl | rfl
    · exact mem_writesBefore cfg _ Step.overlay _ (by decide) (by simp [stepWrites])
    · exact mem_writesBefore cfg _ Step.contactService _ (by decide) (by simp [stepWrites])

/-- C3 (witness): a concrete instance of the amended claim - the repair
block's read of the metainfo loop is produced by the earlier metainfo
block. -/
theorem construction_order_witness :
    Slot.metainfoLoop ∈ writesBefore cfgBase Step.datarepair :=
  (construction_order_amended cfgBase).1 Step.datarepair (by decide) (by decide)
    Slot.metainfoLoop (by decide)

/-- C4: a subsystem task whose `Run` returns an error equal to
context-canceled contributes no error (its `errs2.IgnoreCanceled` wrapper
maps it to nil); and if every launched subsystem's `Run` returns nil or a
context-canceled error, `Core.Run` returns nil - for every completion order
of the launched tasks. -/
theorem run_benign_cancellation (c : Core) (outcome : Slot → GoError)
    (sched : List Slot) (hperm : sched.Perm (runLaunchList c))
    (hben : ∀ t ∈ runLaunchList c,
      outcome t = GoError.none ∨ outcome t = GoError.canceled) :
    IgnoreCanceled GoError.canceled = GoError.none
    ∧ c.Run outcome sched = GoError.none := by
  refine ⟨rfl, ?_⟩
  have hrun : c.Run outcome sched = firstNonBenign outcome sched :=
    groupRun_firstErr outcome sched false
  rw [hrun]
  apply (firstNonBenign_eq_none outcome sched).mpr
  intro t ht
  rcases hben t (hperm.subset ht) with h | h <;> rw [h] <;> rfl

/-- C4 (witness): on the fully built supervisor, with every subsystem
exiting by benign cancellation, `Run` returns no error. -/
theorem run_benign_cancellation_witness :
    IgnoreCanceled GoError.canceled = GoError.none
    ∧ (buildCore cfgFull).Run outcomeCanceled
        (runLaunchList (buildCore cfgFull)) = GoError.none :=
  run_benign_cancellation (buildCore cfgFull) outcomeCanceled
    (runLaunchList (buildCore cfgFull)) (List.Perm.refl _)
    (fun _ _ => Or.inr rfl)

/-- C5: `Core.Run` launches one concurrent task per populated slot of its
launch list (on any supervisor whose twelve unconditional run slots are
populated, the launch list is exactly the populated filter of the fourteen
slots `Run` consults); all tasks share one cancelable child context; `Run`
returns only after every completion of the schedule is consumed
(the schedule has the full launch list's length); its result is the first
non-benign error of the completion order (nil iff every task was benign);
and at any point of the schedule the shared context has been canceled
exactly when some already-completed task returned a non-benign error. -/
theorem run_concurrency (c : Core) (outcome : Slot → GoError)
    (sched : List Slot) (hperm : sched.Perm (runLaunchList c)) :
    ((∀ s ∈ fixedRunSlots, c.populated s = true) →
      runLaunchList c = allRunSlots.filter c.populated)
    ∧ sched.length = (runLaunchList c).length
    ∧ c.Run outcome sched = firstNonBenign outcome sched
    ∧ (c.Run outcome sched = GoError.none ↔
        ∀ t ∈ runLaunchList c, IgnoreCanceled (outcome t) = GoError.none)
    ∧ ∀ pre rest, sched = pre ++ rest →
        (groupRun outcome pre ⟨false, GoError.none⟩).ctxCanceled
          = pre.any fun t => decide (IgnoreCanceled (outcome t) ≠ GoError.none) := by
  refine ⟨runLaunchList_eq_filter c, hperm.length_eq,
    groupRun_firstErr outcome sched false, ?_, ?_⟩
  · rw [show c.Run outcome sched = firstNonBenign outcome sched from
      groupRun_firstErr outcome sched false]
    rw [firstNonBenign_eq_none outcome sched]
    constructor
    · intro h t ht
      exact h t (hperm.symm.subset ht)
    · intro h t ht
      exact h t (hperm.subset ht)
  · intro pre rest _
    simpa using groupRun_ctx outcome pre ⟨false, GoError.none⟩

/-- C5 (witness): on the fully built supervisor with the repair checker
failing, `Run` over the launch-order schedule returns the first non-benign
error, and the launch list is the populated filter of the slots `Run`
consults. -/
theorem run_concurrency_witness :
    (buildCore cfgFull).Run outcomeCheckerFails
        (runLaunchList (buildCore cfgFull))
      = firstNonBenign outcomeCheckerFails (runLaunchList (buildCore cfgFull))
    ∧ runLaunchList (buildCore cfgFull)
        = allRunSlots.filter (buildCore cfgFull).populated := by
  have h := run_concurrency (buildCore cfgFull) outcomeCheckerFails
    (runLaunchList (buildCore cfgFull)) (List.Perm.refl _)
  exact ⟨h.2.2.1, h.1 (by decide)⟩

/-- C6 (witness): with graceful exit disabled, the graceful-exit slot is
empty and its close is skipped. -/
theorem close_collects_witness :
    Slot.gracefulExitChore ∉ ((buildCore cfgBase).Close envFails freshState).invoked :=
  (close_collects (buildCore cfgBase) envFails).2.2 Slot.gracefulExitChore (by decide)

/-- C8: with `config.GracefulExit.Enabled` false, `New` still succeeds,
leaves the graceful-exit chore slot nil, differs from the enabled build only
in that slot, and emits exactly one extra diagnostic log; consequently `Run`
launches one fewer task (none for graceful exit) and `Close` performs one
fewer close call, the absent slot contributing no error to the aggregated
close error (which is exactly the concatenation of the invoked slots'
errors). -/
theorem gracefulexit_disabled (cfg : Config) (env : CloseEnv) :
    (buildCore (withGE false cfg)).gracefulExitChore = false
    ∧ (New (withGE false cfg) env injOk).core = some (buildCore (withGE false cfg))
    ∧ (New (withGE false cfg) env injOk).logs
        = (New (withGE true cfg) env injOk).logs ++ [LogEvent.gracefulExitDisabled]
    ∧ { buildCore (withGE false cfg) with gracefulExitChore := true }
        = buildCore (withGE true cfg)
    ∧ Slot.gracefulExitChore ∉ runLaunchList (buildCore (withGE false cfg))
    ∧ (runLaunchList (buildCore (withGE false cfg))).length + 1
        = (runLaunchList (buildCore (withGE true cfg))).length
    ∧ Slot.gracefulExitChore
        ∉ ((buildCore (withGE false cfg)).Close env freshState).invoked
    ∧ (((buildCore (withGE false cfg)).Close env freshState).invoked).length + 1
        = (((buildCore (withGE true cfg)).Close env freshState).invoked).length
    ∧ ((buildCore (withGE false cfg)).Close env freshState).err
        = ((((buildCore (withGE false cfg)).Close env freshState).invoked).map
            env.closeErr).flatten := by
  have hinvF : ((buildCore (withGE false cfg)).Close env freshState).invoked
      = closeOrder.filter (buildCore (withGE false cfg)).populated :=
    closeList_invoked (buildCore (withGE false cfg)) env closeOrder freshState
  have hinvT : ((buildCore (withGE true cfg)).Close env freshState).invoked
      = closeOrder.filter (buildCore (withGE true cfg)).populated :=
    closeList_invoked (buildCore (withGE true cfg)) env closeOrder freshState
  have hrelF : ((buildCore (withGE false cfg)).Close env freshState).released
      = ((buildCore (withGE false cfg)).Close env freshState).invoked :=
    closeList_released_eq_invoked (buildCore (withGE false cfg)) env closeOrder
      freshState (by decide) (fun t _ => rfl)
  have herrF : ((buildCore (withGE false cfg)).Close env freshState).err
      = ((((buildCore (withGE false cfg)).Close env freshState).released).map
          env.closeErr).flatten :=
    closeList_err (buildCore (withGE false cfg)) env closeOrder freshState
  refine ⟨rfl, rfl, rfl, rfl, ?_, ?_, ?_, ?_, ?_⟩
  · by_cases hp : cfg.paymentsProvider = "stripecoinpayments" <;>
      simp [runLaunchList, buildCore, withGE, hp]
  · by_cases hp : cfg.paymentsProvider = "stripecoinpayments" <;>
      simp [runLaunchList, buildCore, withGE, hp]
  · intro hmem
    rw [hinvF] at hmem
    have hp := (List.mem_filter.mp hmem).2
    simp [buildCore, withGE, Core.populated] at hp
  · rw [hinvF, hinvT]
    have hF : closeOrder.filter (buildCore (withGE false cfg)).populated
        = [Slot.downtimeDetectionChore, Slot.metricsChore,
           Slot.auditChore, Slot.auditWorker, Slot.accountingRollup,
           Slot.accountingTally, Slot.dbCleanupChore, Slot.repairRepairer,
           Slot.repairChecker, Slot.overlayService, Slot.contactService,
           Slot.metainfoLoop] := by
      simp [closeOrder, List.filter_cons, buildCore, withGE, Core.populated]
    have hT : closeOrder.filter (buildCore (withGE true cfg)).populated
        = [Slot.downtimeDetectionChore, Slot.metricsChore, Slot.gracefulExitChore,
           Slot.auditChore, Slot.auditWorker, Slot.accountingRollup,
           Slot.accountingTally, Slot.dbCleanupChore, Slot.repairRepairer,
           Slot.repairChecker, Slot.overlayService, Slot.contactService,
           Slot.metainfoLoop] := by
      simp [closeOrder, List.filter_cons, buildCore, withGE, Core.populated]
    rw [hF, hT]
    decide
  · rw [herrF, hrelF]

/-- C9: billing construction is selected by `config.Payments.Provider`: for
any value other than "stripecoinpayments" the mock accounts implementation
is used and the reconciliation chore slot stays nil, so `Core.Run` launches
no task for it; for "stripecoinpayments" the concrete payment-provider
service is built and both the accounts slot and the reconciliation chore
slot are populated (and `Run` launches its task). -/
theorem payments_provider_selection (cfg : Config) :
    (cfg.paymentsProvider ≠ "stripecoinpayments" →
      (buildCore cfg).paymentsAccounts = some AccountsImpl.mock
      ∧ (buildCore cfg).paymentsChore = false
      ∧ Slot.paymentsChore ∉ runLaunchList (buildCore cfg))
    ∧ (cfg.paymentsProvider = "stripecoinpayments" →
      (buildCore cfg).paymentsAccounts = some AccountsImpl.stripe
      ∧ (buildCore cfg).paymentsChore = true
      ∧ Slot.paymentsChore ∈ runLaunchList (buildCore cfg)) := by
  constructor
  · intro h
    refine ⟨by simp [buildCore, h], by simp [buildCore, h], ?_⟩
    cases hge : cfg.gracefulExitEnabled <;>
      simp [runLaunchList, buildCore, h, hge]
  · intro h
    refine ⟨by simp [buildCore, h], by simp [buildCore, h], ?_⟩
    cases hge : cfg.gracefulExitEnabled <;>
      simp [runLaunchList, buildCore, h, hge]

/-- C9 (witness): concrete instances of both provider selections. -/
theorem payments_provider_selection_witness :
    ((buildCore cfgBase).paymentsAccounts = some AccountsImpl.mock
      ∧ (buildCore cfgBase).paymentsChore = false
      ∧ Slot.paymentsChore ∉ runLaunchList (buildCore cfgBase))
    ∧ ((buildCore cfgFull).paymentsAccounts = some AccountsImpl.stripe
      ∧ (buildCore cfgFull).paymentsChore = true
      ∧ Slot.paymentsChore ∈ runLaunchList (buildCore cfgFull)) :=
  ⟨(payments_provider_selection cfgBase).1 (by decide),
   (payments_provider_selection cfgFull).2 (by decide)⟩

/-- C1 (witness): closing the fully built supervisor twice - the second call
reports no error and no handle is released twice. -/
theorem close_idempotent_witness :
    ((buildCore cfgFull).Close envFails
        ((buildCore cfgFull).Close envFails freshState).state).err = []
    ∧ (((buildCore cfgFull).Close envFails freshState).released
        ++ ((buildCore cfgFull).Close envFails
            ((buildCore cfgFull).Close envFails freshState).state).released).Nodup :=
  ⟨(close_idempotent (buildCore cfgFull) envFails freshState).1,
   (close_idempotent (buildCore cfgFull) envFails freshState).2.2⟩

/-- C7 (witness): the close sequence of the partially built supervisor at
the audit failure point is the populated filter of the teardown order. -/
theorem close_sequence_witness :
    ((builtAtFailure FailStep.auditWorker).Close envOk freshState).invoked
      = closeOrder.filter (builtAtFailure FailStep.auditWorker).populated :=
  (close_sequence (builtAtFailure FailStep.auditWorker) envOk).1

/-- C8 (witness): with graceful exit disabled under the otherwise-full
configuration, `Run` has no graceful-exit task and one fewer launch. -/
theorem gracefulexit_disabled_witness :
    Slot.gracefulExitChore ∉ runLaunchList (buildCore (withGE false cfgFull))
    ∧ (runLaunchList (buildCore (withGE false cfgFull))).length + 1
        = (runLaunchList (buildCore (withGE true cfgFull))).length :=
  ⟨(gracefulexit_disabled cfgFull envFails).2.2.2.2.1,
   (gracefulexit_disabled cfgFull envFails).2.2.2.2.2.1⟩

/-- C10 (witness): on the fully built supervisor, the version-check service
and the garbage-collection service are never closed. -/
theorem close_frame_witness :
    Slot.version ∉ ((buildCore cfgFull).Close envOk freshState).invoked
    ∧ Slot.gcService ∉ ((buildCore cfgFull).Close envOk freshState).invoked :=
  ⟨(close_frame (buildCore cfgFull) envOk freshState).1,
   (close_frame (buildCore cfgFull) envOk freshState).2.2.2.1⟩

end SatelliteCore
